import Mathlib

/-!
Verification development for the ESharp language front-end
(the fuller lexer/parser evolution: source/parser/lexer.cpp,
source/parser/parser.cpp, include/lexer.hpp, include/ast.hpp,
plus the diagnostics formatter in error.cpp).

The C++ code is shallowly embedded: the mutable `Lexer` object becomes a
`Lexer` structure passed explicitly; `Parser` likewise; C++ exceptions
(`LexerError`, `std::runtime_error`) become the `Err` sum carried by
`Except`.  Unbounded C++ `while` loops become fueled recursions; every
loop strictly consumes at least one source character per iteration, so
the fuel `src.length + 1` supplied at each call site can never run out
(the `Err.fuel` outcome is unreachable for those calls; it exists only
to make the recursions structural).
-/

namespace ESharp

/-- The NUL sentinel the C++ lexer uses for end-of-input (`return 0`). -/
def nul : Char := Char.ofNat 0

/-- std::isdigit restricted to the ASCII range, as the C default locale. -/
def isDigitC (c : Char) : Bool := decide (48 ≤ c.toNat ∧ c.toNat ≤ 57)

/-- std::isalpha restricted to the ASCII range, as the C default locale. -/
def isAlphaC (c : Char) : Bool :=
  decide ((97 ≤ c.toNat ∧ c.toNat ≤ 122) ∨ (65 ≤ c.toNat ∧ c.toNat ≤ 90))

/-- std::isalnum restricted to the ASCII range. -/
def isAlnumC (c : Char) : Bool := isAlphaC c || isDigitC c

/-- std::isspace: space, tab, newline, vertical tab, form feed, carriage return. -/
def isSpaceC (c : Char) : Bool :=
  decide (c.toNat = 32 ∨ (9 ≤ c.toNat ∧ c.toNat ≤ 13))

/-- std::string::substr(start, len) over the character list backing the buffer. -/
def substr (src : List Char) (start len : Nat) : String :=
  ((src.drop start).take len).asString

/-- TokenType from include/lexer.hpp. -/
inductive TokenType
  | Fn | Let | Return | If | Else | Print
  | Identifier | Integer | Float | String | Char | Bool
  | IntType | FloatType | StringType | CharType | BoolType | VoidType
  | Colon | Arrow | Eq | EqEq | Neq | Leq | Geq
  | Plus | Minus | Star | Slash | Bang
  | PlusAssign | MinusAssign | StarAssign | SlashAssign
  | Less | Greater
  | LParen | RParen | LBrace | RBrace | Semi | Comma
  | Eof
  deriving DecidableEq, Repr

/-- Token from include/lexer.hpp: kind, lexeme, line, column. -/
structure Token where
  type : TokenType
  lexeme : String
  line : Nat
  col : Nat
  deriving DecidableEq, Repr

/-- The two thrown error kinds: `lex` is LexerError (message, line, column,
source line); `parse` is the bare std::runtime_error the parser throws.
`fuel` is the modeling device for loop fuel, unreachable at the fuel
supplied by the call sites. -/
inductive Err
  | lex (message : String) (line : Nat) (col : Nat) (sourceLine : String)
  | parse (message : String)
  | fuel
  deriving DecidableEq, Repr

/-- The Lexer object state: source buffer plus pos/line/col cursors. -/
structure Lexer where
  src : List Char
  pos : Nat
  line : Nat
  col : Nat
  deriving DecidableEq, Repr

/-- Lexer::Lexer(src): pos 0, line 1, col 1. -/
def Lexer.init (input : String) : Lexer := ⟨input.toList, 0, 1, 1⟩

def Lexer.length (lx : Lexer) : Nat := lx.src.length

/-- Lexer::peek(offset): the character at pos+offset, NUL past the end. -/
def Lexer.peek (lx : Lexer) (offset : Nat) : Char :=
  lx.src.getD (lx.pos + offset) nul

/-- Lexer::advance(): consume one character, maintaining line (newline) and
column (tab advances to the next multiple-of-4 stop, 1-based). -/
def Lexer.advance (lx : Lexer) : Char × Lexer :=
  if lx.pos ≥ lx.length then (nul, lx)
  else
    let c := lx.src.getD lx.pos nul
    if c = Char.ofNat 10 then
      (c, { lx with pos := lx.pos + 1, line := lx.line + 1, col := 1 })
    else if c = Char.ofNat 9 then
      (c, { lx with pos := lx.pos + 1, col := lx.col + (4 - ((lx.col - 1) % 4)) })
    else
      (c, { lx with pos := lx.pos + 1, col := lx.col + 1 })

/-- Lexer::match(expected): consume-if-equal. -/
def Lexer.matchC (lx : Lexer) (expected : Char) : Bool × Lexer :=
  if lx.peek 0 = expected then (true, (lx.advance).2) else (false, lx)

/-- The backward scan of Lexer::getCurrentLine: from index s+1, walk
lineStart back while the previous character is not a newline. -/
def lineStartFrom : List Char → Nat → Nat
  | _, 0 => 0
  | src, s + 1 => if src.getD s nul ≠ Char.ofNat 10 then lineStartFrom src s else s + 1

/-- The forward scan of Lexer::getCurrentLine: extend lineEnd to the next
newline or the end of the buffer. -/
def lineEndFrom : Nat → List Char → Nat → Nat
  | 0, _, e => e
  | f + 1, src, e =>
    if e < src.length ∧ src.getD e nul ≠ Char.ofNat 10 then lineEndFrom f src (e + 1) else e

/-- Lexer::getCurrentLine(): the full text of the line containing pos-1. -/
def Lexer.getCurrentLine (lx : Lexer) : String :=
  if lx.pos = 0 then ""
  else
    let lineStart := lineStartFrom lx.src (lx.pos - 1)
    let lineEnd := lineEndFrom (lx.src.length + 1) lx.src lineStart
    substr lx.src lineStart (lineEnd - lineStart)

/-- Lexer::error(msg): a LexerError at the current line, at column col-1
(clamped to 1), carrying the current source line. -/
def Lexer.error (lx : Lexer) (msg : String) : Err :=
  .lex msg lx.line (if lx.col > 1 then lx.col - 1 else 1) lx.getCurrentLine

/-- The `//` comment scan: advance while not at a newline or NUL. -/
def Lexer.skipLineBody : Nat → Lexer → Lexer
  | 0, lx => lx
  | f + 1, lx =>
    if lx.peek 0 ≠ Char.ofNat 10 ∧ lx.peek 0 ≠ nul then Lexer.skipLineBody f (lx.advance).2
    else lx

/-- The `/* ... */` body scan: advance until `*` `/` is next, error on NUL. -/
def Lexer.skipBlockBody : Nat → Lexer → Except Err Lexer
  | 0, _ => throw .fuel
  | f + 1, lx =>
    if lx.peek 0 = '*' ∧ lx.peek 1 = '/' then pure lx
    else if lx.peek 0 = nul then throw (lx.error ("Unterminated block comment"))
    else Lexer.skipBlockBody f (lx.advance).2

/-- Lexer::skipWhitespaceAndComments(). -/
def Lexer.skipWhitespaceAndComments : Nat → Lexer → Except Err Lexer
  | 0, _ => throw .fuel
  | f + 1, lx =>
    if isSpaceC (lx.peek 0) then Lexer.skipWhitespaceAndComments f (lx.advance).2
    else if lx.peek 0 = '/' ∧ lx.peek 1 = '/' then
      Lexer.skipWhitespaceAndComments f (Lexer.skipLineBody (lx.length + 1) lx)
    else if lx.peek 0 = '/' ∧ lx.peek 1 = '*' then do
      let lx2 ← Lexer.skipBlockBody (lx.length + 1) ((lx.advance).2.advance).2
      Lexer.skipWhitespaceAndComments f ((lx2.advance).2.advance).2
    else pure lx

/-- The identifier scan: advance while alphanumeric or underscore. -/
def Lexer.identBody : Nat → Lexer → Lexer
  | 0, lx => lx
  | f + 1, lx =>
    if isAlnumC (lx.peek 0) ∨ lx.peek 0 = '_' then Lexer.identBody f (lx.advance).2 else lx

/-- Lexer::identifierOrKeyword(): scan the identifier, then classify through
the keyword table (fn, let, if, else, return only). -/
def Lexer.identifierOrKeyword (lx : Lexer) : Token × Lexer :=
  let startPos := lx.pos
  let startCol := lx.col
  let startLine := lx.line
  let lx' := Lexer.identBody (lx.length + 1) lx
  let text := substr lx.src startPos (lx'.pos - startPos)
  let ty :=
    if text = "fn" then TokenType.Fn
    else if text = "let" then TokenType.Let
    else if text = "if" then TokenType.If
    else if text = "else" then TokenType.Else
    else if text = "return" then TokenType.Return
    else TokenType.Identifier
  (⟨ty, text, startLine, startCol⟩, lx')

/-- The digit scan: advance while the next character is a digit. -/
def Lexer.digitsBody : Nat → Lexer → Lexer
  | 0, lx => lx
  | f + 1, lx => if isDigitC (lx.peek 0) then Lexer.digitsBody f (lx.advance).2 else lx

/-- Lexer::number(): digits, then a fractional part only when a digit
immediately follows the decimal point. -/
def Lexer.number (lx : Lexer) : Token × Lexer :=
  let startPos := lx.pos
  let startCol := lx.col
  let startLine := lx.line
  let lx1 := Lexer.digitsBody (lx.length + 1) lx
  let fr : Bool × Lexer :=
    if lx1.peek 0 = '.' ∧ isDigitC (lx1.peek 1) then
      (true, Lexer.digitsBody (lx.length + 1) ((lx1.advance).2))
    else (false, lx1)
  let num := substr lx.src startPos (fr.2.pos - startPos)
  (⟨if fr.1 then TokenType.Float else TokenType.Integer, num, startLine, startCol⟩, fr.2)

/-- The body of Lexer::string(): consume characters into `value`, handling
the four escapes, until the closing quote; NUL is an unterminated string. -/
def Lexer.stringLoop : Nat → String → Lexer → Except Err (String × Lexer)
  | 0, _, _ => throw .fuel
  | f + 1, value, lx0 =>
    let (c, lx) := lx0.advance
    if c = nul then throw (lx.error ("Unterminated string"))
    else if c = '"' then pure (value, lx)
    else if c = '\\' then
      let (e, lx2) := lx.advance
      if e = 'n' then Lexer.stringLoop f (value.push (Char.ofNat 10)) lx2
      else if e = 't' then Lexer.stringLoop f (value.push (Char.ofNat 9)) lx2
      else if e = '\\' then Lexer.stringLoop f (value.push '\\') lx2
      else if e = '"' then Lexer.stringLoop f (value.push '"') lx2
      else throw (lx2.error ("Invalid escape sequence"))
    else Lexer.stringLoop f (value.push c) lx

/-- Lexer::string().  Note the C++ call site `case quote: return string();`
reaches this with the opening quote already consumed, and the leading
`advance()` here then consumes (and drops) one further character. -/
def Lexer.string (lx : Lexer) : Except Err (Token × Lexer) := do
  let startCol := lx.col
  let startLine := lx.line
  let lx1 := (lx.advance).2
  let (value, lx2) ← Lexer.stringLoop (lx.length + 1) "" lx1
  pure (⟨TokenType.String, value, startLine, startCol⟩, lx2)

/-- The body of Lexer::nextToken after the whitespace/comment skip: the
end-of-input check and the dispatch on the consumed character. -/
def Lexer.scanToken (lx : Lexer) : Except Err (Token × Lexer) :=
  if lx.pos ≥ lx.length then pure (⟨TokenType.Eof, "", lx.line, lx.col⟩, lx)
  else
    let c := (lx.advance).1
    let lx1 := (lx.advance).2
    let startLine := lx1.line
    let startCol := lx1.col - 1
    if c = '(' then pure (⟨TokenType.LParen, "(", startLine, startCol⟩, lx1)
    else if c = ')' then pure (⟨TokenType.RParen, ")", startLine, startCol⟩, lx1)
    else if c = Char.ofNat 123 then pure (⟨TokenType.LBrace, "\x7b", startLine, startCol⟩, lx1)
    else if c = Char.ofNat 125 then pure (⟨TokenType.RBrace, "\x7d", startLine, startCol⟩, lx1)
    else if c = ',' then pure (⟨TokenType.Comma, ",", startLine, startCol⟩, lx1)
    else if c = ':' then pure (⟨TokenType.Colon, ":", startLine, startCol⟩, lx1)
    else if c = ';' then pure (⟨TokenType.Semi, ";", startLine, startCol⟩, lx1)
    else if c = '+' then
      let mr := lx1.matchC '='
      if mr.1 then pure (⟨TokenType.PlusAssign, "+=", startLine, startCol⟩, mr.2)
      else pure (⟨TokenType.Plus, "+", startLine, startCol⟩, mr.2)
    else if c = '-' then
      let mr := lx1.matchC '>'
      if mr.1 then pure (⟨TokenType.Arrow, "->", startLine, startCol⟩, mr.2)
      else
        let mr2 := mr.2.matchC '='
        if mr2.1 then pure (⟨TokenType.MinusAssign, "-=", startLine, startCol⟩, mr2.2)
        else pure (⟨TokenType.Minus, "-", startLine, startCol⟩, mr2.2)
    else if c = '*' then
      let mr := lx1.matchC '='
      if mr.1 then pure (⟨TokenType.StarAssign, "*=", startLine, startCol⟩, mr.2)
      else pure (⟨TokenType.Star, "*", startLine, startCol⟩, mr.2)
    else if c = '/' then
      let mr := lx1.matchC '='
      if mr.1 then pure (⟨TokenType.SlashAssign, "/=", startLine, startCol⟩, mr.2)
      else pure (⟨TokenType.Slash, "/", startLine, startCol⟩, mr.2)
    else if c = '=' then
      let mr := lx1.matchC '='
      if mr.1 then pure (⟨TokenType.EqEq, "==", startLine, startCol⟩, mr.2)
      else pure (⟨TokenType.Eq, "=", startLine, startCol⟩, mr.2)
    else if c = '!' then
      let mr := lx1.matchC '='
      if mr.1 then pure (⟨TokenType.Neq, "!=", startLine, startCol⟩, mr.2)
      else pure (⟨TokenType.Bang, "!", startLine, startCol⟩, mr.2)
    else if c = '<' then
      let mr := lx1.matchC '='
      if mr.1 then pure (⟨TokenType.Leq, "<=", startLine, startCol⟩, mr.2)
      else pure (⟨TokenType.Less, "<", startLine, startCol⟩, mr.2)
    else if c = '>' then
      let mr := lx1.matchC '='
      if mr.1 then pure (⟨TokenType.Geq, ">=", startLine, startCol⟩, mr.2)
      else pure (⟨TokenType.Greater, ">", startLine, startCol⟩, mr.2)
    else if c = '"' then lx1.string
    else if isAlphaC c ∨ c = '_' then
      pure (Lexer.identifierOrKeyword { lx1 with pos := lx1.pos - 1 })
    else if isDigitC c then
      pure (Lexer.number { lx1 with pos := lx1.pos - 1 })
    else throw (lx1.error (("Unexpected character: ").push c))

/-- Lexer::nextToken(): skip whitespace and comments, then scan one token. -/
def Lexer.nextToken (lx0 : Lexer) : Except Err (Token × Lexer) := do
  let lx ← Lexer.skipWhitespaceAndComments (lx0.length + 1) lx0
  Lexer.scanToken lx

/-- Lexer::peekToken(): snapshot pos/line/col, call nextToken, restore. -/
def Lexer.peekToken (lx : Lexer) : Except Err (Token × Lexer) := do
  let (tok, lx') ← lx.nextToken
  pure (tok, { lx' with pos := lx.pos, line := lx.line, col := lx.col })

/-- VarType from include/ast.hpp. -/
inductive VarType
  | Int | Float | String | Char | Bool | Void
  deriving DecidableEq, Repr

/-- The ASTNode hierarchy of include/ast.hpp as one closed sum; statement
lists hold expression nodes directly (expression statements), exactly as
the untyped ASTPtr vectors do. -/
inductive AST
  | IntExpr (value : Int)
  | DoubleExpr (text : String)
  | StringExpr (value : String)
  | CharExpr (value : Char)
  | BoolExpr (value : Bool)
  | VoidExpr
  | VarExpr (name : String)
  | BinaryExpr (op : String) (left right : AST)
  | CallExpr (callee : String) (args : List AST)
  | ReturnStmt (value : AST)
  | IfStmt (cond : AST) (thenBranch elseBranch : List AST)
  | LetDecl (name : String) (type : VarType) (init : Option AST)
  | BlockStmt (statements : List AST)
  deriving Repr

/-- Function from include/ast.hpp; body is the BlockStmt node. -/
structure Function where
  name : String
  returnType : VarType
  params : List (String × VarType)
  body : AST
  deriving Repr

/-- Program: the ordered list of functions. -/
structure Program where
  functions : List Function
  deriving Repr

/-- std::stoll on the digit-only lexemes the lexer produces (the C++
out-of-range exception for oversized literals is not modeled). -/
def stoll (s : String) : Int :=
  ((s.toList.foldl (fun acc c => acc * 10 + (c.toNat - 48)) 0 : Nat) : Int)

/-- stringToVarType from parser.cpp (throws Unknown type otherwise). -/
def stringToVarType (s : String) : Except Err VarType :=
  if s = "Int" then pure VarType.Int
  else if s = "Float" then pure VarType.Float
  else if s = "String" then pure VarType.String
  else if s = "Char" then pure VarType.Char
  else if s = "Bool" then pure VarType.Bool
  else if s = "Void" then pure VarType.Void
  else throw (.parse (("Unknown type: ") ++ s))

/-- Parser::isTypeToken. -/
def isTypeToken : TokenType → Bool
  | .IntType | .FloatType | .CharType | .BoolType | .StringType | .VoidType => true
  | _ => false

/-- The Parser object: the owned lexer and the one-token lookahead. -/
structure Parser where
  lexer : Lexer
  current : Token
  deriving Repr

/-- Parser::advance(): current = lexer.nextToken(). -/
def Parser.advance (p : Parser) : Except Err Parser := do
  let (t, lx) ← p.lexer.nextToken
  pure ⟨lx, t⟩

/-- Parser::check(type): lookahead test. -/
def Parser.check (p : Parser) (ty : TokenType) : Bool := p.current.type = ty

/-- Parser::match(type): consume-if-equal. -/
def Parser.matchT (p : Parser) (ty : TokenType) : Except Err (Bool × Parser) :=
  if p.check ty then do
    let p' ← p.advance
    pure (true, p')
  else pure (false, p)

/-- Parser::expect(type, msg). -/
def Parser.expect (p : Parser) (ty : TokenType) (msg : String) : Except Err Parser := do
  let (m, p') ← p.matchT ty
  if m then pure p' else throw (.parse (("Expected ") ++ msg))

/-- The Parser constructor primes the lookahead with one advance. -/
def mkParser (lx : Lexer) : Except Err Parser := do
  let (t, lx') ← lx.nextToken
  pure ⟨lx', t⟩

/-- The mutually recursive statement/expression parser functions at one
fuel level.  Each cross-call in parser.cpp becomes a call into the record
for the next smaller fuel, which keeps every recursion structural. -/
structure ParserFns where
  statementCore : Parser → Except Err (AST × Parser)
  statement : Parser → Except Err (AST × Parser)
  letDecl : Parser → Except Err (AST × Parser)
  ifStmt : Parser → Except Err (AST × Parser)
  returnStmt : Parser → Except Err (AST × Parser)
  blockItems : Parser → List AST → Except Err (List AST × Parser)
  block : Parser → Except Err (List AST × Parser)
  expression : Parser → Except Err (AST × Parser)
  equality : Parser → Except Err (AST × Parser)
  equalityLoop : AST → Parser → Except Err (AST × Parser)
  comparison : Parser → Except Err (AST × Parser)
  comparisonLoop : AST → Parser → Except Err (AST × Parser)
  term : Parser → Except Err (AST × Parser)
  termLoop : AST → Parser → Except Err (AST × Parser)
  factor : Parser → Except Err (AST × Parser)
  factorLoop : AST → Parser → Except Err (AST × Parser)
  primary : Parser → Except Err (AST × Parser)
  callOrVar : Parser → Except Err (AST × Parser)
  args : Parser → List AST → Except Err (List AST × Parser)

/-- Fuel exhaustion at level zero (unreachable for the supplied fuel). -/
def fuelFns : ParserFns where
  statementCore _ := throw .fuel
  statement _ := throw .fuel
  letDecl _ := throw .fuel
  ifStmt _ := throw .fuel
  returnStmt _ := throw .fuel
  blockItems _ _ := throw .fuel
  block _ := throw .fuel
  expression _ := throw .fuel
  equality _ := throw .fuel
  equalityLoop _ _ := throw .fuel
  comparison _ := throw .fuel
  comparisonLoop _ _ := throw .fuel
  term _ := throw .fuel
  termLoop _ _ := throw .fuel
  factor _ := throw .fuel
  factorLoop _ _ := throw .fuel
  primary _ := throw .fuel
  callOrVar _ := throw .fuel
  args _ _ := throw .fuel

/-- One fuel step: the bodies of the Parser methods from parser.cpp. -/
def stepFns (prev : ParserFns) : ParserFns where
  /- Parser::parseStatement, the dispatch part (let / if / return /
  expression). -/
  statementCore p := do
    let (mLet, p) ← p.matchT .Let
    if mLet then prev.letDecl p
    else do
      let (mIf, p) ← p.matchT .If
      if mIf then prev.ifStmt p
      else do
        let (mRet, p) ← p.matchT .Return
        if mRet then prev.returnStmt p
        else prev.expression p
  /- Parser::parseStatement: the dispatched statement, then a required
  semicolon unless the current token is the closing brace. -/
  statement p := do
    let (stmt, p1) ← prev.statementCore p
    if p1.check .RBrace then pure (stmt, p1)
    else do
      let p2 ← p1.expect .Semi ("`;` after statement")
      pure (stmt, p2)
  /- Parser::parseLetDecl. -/
  letDecl p :=
    if ¬ p.check .Identifier then throw (.parse ("Expected variable name"))
    else do
      let name := p.current.lexeme
      let p ← p.advance
      let p ← p.expect .Colon ("`:`")
      if ¬ isTypeToken p.current.type then throw (.parse ("Expected type name"))
      else do
        let ty ← stringToVarType p.current.lexeme
        let p ← p.advance
        let (m, p) ← p.matchT .Eq
        if m then do
          let (e, p) ← prev.expression p
          pure (.LetDecl name ty (some e), p)
        else pure (.LetDecl name ty none, p)
  /- Parser::parseIfStmt (the if keyword is already consumed). -/
  ifStmt p := do
    let (cond, p) ← prev.expression p
    let (thenBranch, p) ← prev.block p
    let (mElse, p) ← p.matchT .Else
    if mElse then do
      let (elseBranch, p) ← prev.block p
      pure (.IfStmt cond thenBranch elseBranch, p)
    else pure (.IfStmt cond thenBranch [], p)
  /- Parser::parseReturnStmt (the return keyword is already consumed). -/
  returnStmt p := do
    let (value, p) ← prev.expression p
    pure (.ReturnStmt value, p)
  /- The statement loop of Parser::parseBlock. -/
  blockItems p acc :=
    if ¬ p.check .RBrace ∧ ¬ p.check .Eof then do
      let (s, p') ← prev.statement p
      prev.blockItems p' (acc ++ [s])
    else pure (acc, p)
  /- Parser::parseBlock. -/
  block p := do
    let p ← p.expect .LBrace ("`\x7b`")
    let (stmts, p) ← prev.blockItems p []
    let p ← p.expect .RBrace ("`\x7d`")
    pure (stmts, p)
  /- Parser::parseExpression. -/
  expression p := prev.equality p
  /- Parser::parseEquality. -/
  equality p := do
    let (e, p) ← prev.comparison p
    prev.equalityLoop e p
  /- The loop of Parser::parseEquality (operator string hard-coded). -/
  equalityLoop e p := do
    let (m, p) ← p.matchT .Eq
    if m then do
      let (r, p) ← prev.comparison p
      prev.equalityLoop (.BinaryExpr ("=") e r) p
    else pure (e, p)
  /- Parser::parseComparison. -/
  comparison p := do
    let (e, p) ← prev.term p
    prev.comparisonLoop e p
  /- The loop of Parser::parseComparison (operator string hard-coded). -/
  comparisonLoop e p := do
    let (m, p) ← p.matchT .Leq
    if m then do
      let (r, p) ← prev.term p
      prev.comparisonLoop (.BinaryExpr ("<=") e r) p
    else pure (e, p)
  /- Parser::parseTerm. -/
  term p := do
    let (e, p) ← prev.factor p
    prev.termLoop e p
  /- The loop of Parser::parseTerm.  As in the C++, the operator string is
  read from current after match has already consumed the operator, so it
  is the lexeme of the following token. -/
  termLoop e p := do
    let (m1, p1) ← p.matchT .Plus
    if m1 then do
      let op := p1.current.lexeme
      let (r, p2) ← prev.factor p1
      prev.termLoop (.BinaryExpr op e r) p2
    else do
      let (m2, p2) ← p1.matchT .Minus
      if m2 then do
        let op := p2.current.lexeme
        let (r, p3) ← prev.factor p2
        prev.termLoop (.BinaryExpr op e r) p3
      else pure (e, p2)
  /- Parser::parseFactor. -/
  factor p := do
    let (e, p) ← prev.primary p
    prev.factorLoop e p
  /- The loop of Parser::parseFactor; same post-match operator lexeme read
  as the term loop. -/
  factorLoop e p := do
    let (m1, p1) ← p.matchT .Star
    if m1 then do
      let op := p1.current.lexeme
      let (r, p2) ← prev.primary p1
      prev.factorLoop (.BinaryExpr op e r) p2
    else do
      let (m2, p2) ← p1.matchT .Slash
      if m2 then do
        let op := p2.current.lexeme
        let (r, p3) ← prev.primary p2
        prev.factorLoop (.BinaryExpr op e r) p3
      else pure (e, p2)
  /- Parser::parsePrimary. -/
  primary p :=
    if p.check .Integer then do
      let numText := p.current.lexeme
      let p ← p.advance
      pure (.IntExpr (stoll numText), p)
    else if p.check .Float then do
      let numText := p.current.lexeme
      let p ← p.advance
      pure (.DoubleExpr numText, p)
    else if p.check .String then do
      let strText := p.current.lexeme
      let p ← p.advance
      pure (.StringExpr strText, p)
    else if p.check .Char then do
      let charText := p.current.lexeme
      let p ← p.advance
      if charText = "" then throw (.parse ("Empty char literal"))
      else pure (.CharExpr (charText.toList.getD 0 nul), p)
    else if p.check .Bool then do
      let val := p.current.lexeme = "true"
      let p ← p.advance
      pure (.BoolExpr val, p)
    else if p.check .Identifier then prev.callOrVar p
    else do
      let (m, p) ← p.matchT .LParen
      if m then do
        let (e, p) ← prev.expression p
        let p ← p.expect .RParen ("`)`")
        pure (e, p)
      else if p.check .VoidType then do
        let p ← p.advance
        pure (.VoidExpr, p)
      else throw (.parse ("Unexpected token in expression"))
  /- Parser::parseCallOrVar: identifier followed by a left parenthesis is
  a call, else a variable reference. -/
  callOrVar p := do
    let name := p.current.lexeme
    let p ← p.advance
    let (m, p) ← p.matchT .LParen
    if m then do
      let (args, p) ←
        if ¬ p.check .RParen then prev.args p [] else pure ([], p)
      let p ← p.expect .RParen ("`)`")
      pure (.CallExpr name args, p)
    else pure (.VarExpr name, p)
  /- The do-while argument loop of Parser::parseCallOrVar. -/
  args p acc := do
    let (e, p) ← prev.expression p
    let (m, p) ← p.matchT .Comma
    if m then prev.args p (acc ++ [e]) else pure (acc ++ [e], p)

/-- The parser functions at a given fuel, by plain Nat recursion. -/
def parserFns (fuel : Nat) : ParserFns :=
  Nat.rec fuelFns (fun _ ih => stepFns ih) fuel

/-- Parser::parseStatement, dispatch part, at a fuel level. -/
def parseStatementCore (f : Nat) (p : Parser) : Except Err (AST × Parser) :=
  (parserFns f).statementCore p

/-- Parser::parseStatement at a fuel level. -/
def parseStatement (f : Nat) (p : Parser) : Except Err (AST × Parser) :=
  (parserFns f).statement p

/-- Parser::parseLetDecl at a fuel level. -/
def parseLetDecl (f : Nat) (p : Parser) : Except Err (AST × Parser) :=
  (parserFns f).letDecl p

/-- Parser::parseIfStmt at a fuel level. -/
def parseIfStmt (f : Nat) (p : Parser) : Except Err (AST × Parser) :=
  (parserFns f).ifStmt p

/-- Parser::parseReturnStmt at a fuel level. -/
def parseReturnStmt (f : Nat) (p : Parser) : Except Err (AST × Parser) :=
  (parserFns f).returnStmt p

/-- Parser::parseBlock at a fuel level. -/
def parseBlock (f : Nat) (p : Parser) : Except Err (List AST × Parser) :=
  (parserFns f).block p

/-- Parser::parseExpression at a fuel level. -/
def parseExpression (f : Nat) (p : Parser) : Except Err (AST × Parser) :=
  (parserFns f).expression p

/-- Parser::parsePrimary at a fuel level. -/
def parsePrimary (f : Nat) (p : Parser) : Except Err (AST × Parser) :=
  (parserFns f).primary p

/-- Parser::parseCallOrVar at a fuel level. -/
def parseCallOrVar (f : Nat) (p : Parser) : Except Err (AST × Parser) :=
  (parserFns f).callOrVar p

/-- The do-while parameter loop of Parser::parseFunction. -/
def parseParams : Nat → Parser → List (String × VarType) →
    Except Err (List (String × VarType) × Parser)
  | 0, _, _ => throw .fuel
  | f + 1, p, acc =>
    if ¬ p.check .Identifier then throw (.parse ("Expected parameter name"))
    else do
      let pname := p.current.lexeme
      let p ← p.advance
      let p ← p.expect .Colon ("`:`")
      if ¬ isTypeToken p.current.type then throw (.parse ("Expected parameter type"))
      else do
        let pt ← stringToVarType p.current.lexeme
        let p ← p.advance
        let (m, p) ← p.matchT .Comma
        if m then parseParams f p (acc ++ [(pname, pt)])
        else pure (acc ++ [(pname, pt)], p)

/-- Parser::parseFunction. -/
def parseFunction : Nat → Parser → Except Err (Function × Parser)
  | 0, _ => throw .fuel
  | f + 1, p => do
    let p ← p.expect .Fn ("`fn`")
    if ¬ p.check .Identifier then throw (.parse ("Expected function name"))
    else do
      let name := p.current.lexeme
      let p ← p.advance
      let p ← p.expect .LParen ("`(`")
      let (params, p) ←
        if ¬ p.check .RParen then parseParams f p [] else pure ([], p)
      let p ← p.expect .RParen ("`)`")
      let p ← p.expect .Arrow ("`->`")
      if ¬ isTypeToken p.current.type then throw (.parse ("Expected return type"))
      else do
        let returnType ← stringToVarType p.current.lexeme
        let p ← p.advance
        let (stmts, p) ← parseBlock f p
        pure (⟨name, returnType, params, .BlockStmt stmts⟩, p)

/-- The function loop of Parser::parseProgram. -/
def parseProgramLoop : Nat → Parser → List Function → Except Err (Program × Parser)
  | 0, _, _ => throw .fuel
  | f + 1, p, acc =>
    if ¬ p.check .Eof then do
      let (fn, p') ← parseFunction f p
      parseProgramLoop f p' (acc ++ [fn])
    else pure (⟨acc⟩, p)

/-- Parser::parseProgram. -/
def parseProgram (fuel : Nat) (p : Parser) : Except Err (Program × Parser) :=
  parseProgramLoop fuel p []

/-- The driver path: build the lexer and parser over the input and run
parseProgram.  The fuel is generous; every parsing step consumes input. -/
def parseProgramTop (input : String) : Except Err Program := do
  let p ← mkParser (Lexer.init input)
  let (prog, _) ← parseProgram ((input.length + 4) * 8) p
  pure prog

/-- Running Parser::parseExpression over a fresh parser on the input, as
the expression-level claims describe. -/
def parseExpressionTop (input : String) : Except Err AST := do
  let p ← mkParser (Lexer.init input)
  let (e, _) ← parseExpression ((input.length + 4) * 8) p
  pure e

/-- LexerError from include/error.hpp: the four stored fields. -/
structure LexerError where
  message : String
  line : Nat
  col : Nat
  sourceLine : String
  deriving DecidableEq, Repr

/-- std::string(n, space). -/
def spacesN (n : Nat) : String := (List.replicate n ' ').asString

/-- expandTabs from error.cpp: each tab becomes exactly tabSize = 4 spaces,
independent of its position; every other character is copied. -/
def expandTabs (line : String) : String :=
  line.toList.foldl (fun result c => if c = Char.ofNat 9 then result ++ (spacesN 4) else result.push c) ""

/-- visualColumn from error.cpp: walk the first col-1 characters, a tab
advancing the visual position to the next multiple-of-4 stop. -/
def visualColumn (line : String) (col : Nat) : Nat :=
  (line.toList.take (col - 1)).foldl
    (fun visualCol c => if c = Char.ofNat 9 then visualCol + (4 - visualCol % 4) else visualCol + 1) 0

/-- LexerError::formatMessage from error.cpp. -/
def LexerError.formatMessage (e : LexerError) : String :=
  let header := ("Lexer error at line ") ++ toString e.line ++ (", col ") ++ toString e.col
    ++ (": ") ++ e.message ++ ("\n")
  if e.sourceLine = "" then header
  else header ++ expandTabs e.sourceLine ++ ("\n") ++ spacesN (visualColumn e.sourceLine e.col) ++ ("^")

/-- Modelled from the spec sentence behind claim C9, for comparison with
the code formatter: a tab expands to spaces only up to the NEXT 4-column
stop of the expanded text. -/
def claimExpandTabs (line : String) : String :=
  line.toList.foldl
    (fun result c =>
      if c = Char.ofNat 9 then result ++ spacesN (4 - result.length % 4) else result.push c) ""

/-- Modelled from the spec sentence behind claim C9: the caret column is
the raw column mapped through the same tab expansion used for display,
that is, the expanded length of the first col-1 characters. -/
def claimCaretColumn (line : String) (col : Nat) : Nat :=
  (claimExpandTabs ((line.toList.take (col - 1)).asString)).length

/-- Modelled from the spec sentence behind claim C9: the display format a
lexical diagnostic is claimed to have. -/
def claimFormatMessage (e : LexerError) : String :=
  ("Lex error at line ") ++ toString e.line ++ (", col ") ++ toString e.col
    ++ (": ") ++ e.message ++ ("\n")
    ++ claimExpandTabs e.sourceLine ++ ("\n")
    ++ spacesN (claimCaretColumn e.sourceLine e.col) ++ ("^")

/-- Bind on a success, for rewriting monadic parser code. -/
@[simp]
theorem exc_bind_ok {α β : Type} (a : α) (f : α → Except Err β) :
    (Except.ok a : Except Err α) >>= f = f a := rfl

/-- Bind on an error, for rewriting monadic parser code. -/
@[simp]
theorem exc_bind_error {α β : Type} (e : Err) (f : α → Except Err β) :
    (Except.error e : Except Err α) >>= f = Except.error e := rfl

/-- Bind on a pure value, for rewriting monadic parser code. -/
@[simp]
theorem exc_bind_pure {α β : Type} (a : α) (f : α → Except Err β) :
    (pure a : Except Err α) >>= f = f a := rfl

/-- A pure result equal to an ok pair determines the token component. -/
theorem ok_pair_fst {α β : Type} {pr : α × β} {a : α} {b : β}
    (h : (pure pr : Except Err (α × β)) = .ok (a, b)) : a = pr.1 := by
  have h' : (Except.ok pr : Except Err (α × β)) = .ok (a, b) := h
  injection h' with h1
  subst h1
  rfl

/-- A throw never equals an ok result. -/
theorem throw_ne_ok {α : Type} {e : Err} {r : α}
    (h : (throw e : Except Err α) = .ok r) : False :=
  Except.noConfusion h

/-- Lexer::identifierOrKeyword only yields keyword or Identifier kinds,
never one of the type-name kinds isTypeToken accepts. -/
theorem identifierOrKeyword_not_typeToken (lx : Lexer) :
    isTypeToken ((Lexer.identifierOrKeyword lx).1).type = false := by
  unfold Lexer.identifierOrKeyword
  dsimp only
  repeat' split
  all_goals rfl

/-- Lexer::number only yields Integer or Float kinds. -/
theorem number_not_typeToken (lx : Lexer) :
    isTypeToken ((Lexer.number lx).1).type = false := by
  unfold Lexer.number
  dsimp only
  repeat' split
  all_goals rfl

/-- Lexer::string only yields String-kind tokens. -/
theorem string_token_type {lx : Lexer} {t : Token} {lx2 : Lexer}
    (h : lx.string = .ok (t, lx2)) : t.type = .String := by
  simp only [Lexer.string] at h
  cases hs : Lexer.stringLoop (lx.length + 1) "" ((lx.advance).2) with
  | error e => rw [hs] at h; exact Except.noConfusion h
  | ok v =>
    rw [hs] at h
    obtain ⟨value, lx3⟩ := v
    simp only [exc_bind_ok] at h
    rw [ok_pair_fst h]

/-- An either-way pure ite determines the token as one of two values. -/
theorem ite_pure_tok {b : Prop} [Decidable b] {x y : Token × Lexer}
    {t : Token} {lxr : Lexer}
    (h : (if b then pure x else pure y : Except Err (Token × Lexer)) = .ok (t, lxr)) :
    t = x.1 ∨ t = y.1 := by
  by_cases hb : b
  · rw [if_pos hb] at h
    exact .inl (ok_pair_fst h)
  · rw [if_neg hb] at h
    exact .inr (ok_pair_fst h)

/-- The character dispatch of nextToken can never produce a token whose
kind isTypeToken accepts. -/
theorem scanToken_not_typeToken {lx : Lexer} {t : Token} {lxr : Lexer}
    (h : lx.scanToken = .ok (t, lxr)) : isTypeToken t.type = false := by
  unfold Lexer.scanToken at h
  by_cases hp : lx.pos ≥ lx.length
  case pos =>
    rw [if_pos hp] at h
    rw [ok_pair_fst h]
    rfl
  case neg =>
    rw [if_neg hp] at h
    dsimp only at h
    by_cases hc1 : lx.advance.1 = '('
    · rw [if_pos hc1] at h; rw [ok_pair_fst h]; rfl
    · rw [if_neg hc1] at h
      by_cases hc2 : lx.advance.1 = ')'
      · rw [if_pos hc2] at h; rw [ok_pair_fst h]; rfl
      · rw [if_neg hc2] at h
        by_cases hc3 : lx.advance.1 = Char.ofNat 123
        · rw [if_pos hc3] at h; rw [ok_pair_fst h]; rfl
        · rw [if_neg hc3] at h
          by_cases hc4 : lx.advance.1 = Char.ofNat 125
          · rw [if_pos hc4] at h; rw [ok_pair_fst h]; rfl
          · rw [if_neg hc4] at h
            by_cases hc5 : lx.advance.1 = ','
            · rw [if_pos hc5] at h; rw [ok_pair_fst h]; rfl
            · rw [if_neg hc5] at h
              by_cases hc6 : lx.advance.1 = ':'
              · rw [if_pos hc6] at h; rw [ok_pair_fst h]; rfl
              · rw [if_neg hc6] at h
                by_cases hc7 : lx.advance.1 = ';'
                · rw [if_pos hc7] at h; rw [ok_pair_fst h]; rfl
                · rw [if_neg hc7] at h
                  by_cases hc8 : lx.advance.1 = '+'
                  · rw [if_pos hc8] at h
                    rcases ite_pure_tok h with h1 | h1 <;> (rw [h1]; rfl)
                  · rw [if_neg hc8] at h
                    by_cases hc9 : lx.advance.1 = '-'
                    · rw [if_pos hc9] at h
                      by_cases hm : (lx.advance.2.matchC '>').1 = true
                      · rw [if_pos hm] at h; rw [ok_pair_fst h]; rfl
                      · rw [if_neg hm] at h
                        rcases ite_pure_tok h with h1 | h1 <;> (rw [h1]; rfl)
                    · rw [if_neg hc9] at h
                      by_cases hc10 : lx.advance.1 = '*'
                      · rw [if_pos hc10] at h
                        rcases ite_pure_tok h with h1 | h1 <;> (rw [h1]; rfl)
                      · rw [if_neg hc10] at h
                        by_cases hc11 : lx.advance.1 = '/'
                        · rw [if_pos hc11] at h
                          rcases ite_pure_tok h with h1 | h1 <;> (rw [h1]; rfl)
                        · rw [if_neg hc11] at h
                          by_cases hc12 : lx.advance.1 = '='
                          · rw [if_pos hc12] at h
                            rcases ite_pure_tok h with h1 | h1 <;> (rw [h1]; rfl)
                          · rw [if_neg hc12] at h
                            by_cases hc13 : lx.advance.1 = '!'
                            · rw [if_pos hc13] at h
                              rcases ite_pure_tok h with h1 | h1 <;> (rw [h1]; rfl)
                            · rw [if_neg hc13] at h
                              by_cases hc14 : lx.advance.1 = '<'
                              · rw [if_pos hc14] at h
                                rcases ite_pure_tok h with h1 | h1 <;> (rw [h1]; rfl)
                              · rw [if_neg hc14] at h
                                by_cases hc15 : lx.advance.1 = '>'
                                · rw [if_pos hc15] at h
                                  rcases ite_pure_tok h with h1 | h1 <;> (rw [h1]; rfl)
                                · rw [if_neg hc15] at h
                                  by_cases hq : lx.advance.1 = '"'
                                  · rw [if_pos hq] at h
                                    rw [string_token_type h]
                                    rfl
                                  · rw [if_neg hq] at h
                                    by_cases hAl : isAlphaC lx.advance.1 = true ∨ lx.advance.1 = '_'
                                    · rw [if_pos hAl] at h; rw [ok_pair_fst h]
                                      exact identifierOrKeyword_not_typeToken _
                                    · rw [if_neg hAl] at h
                                      by_cases hDg : isDigitC lx.advance.1 = true
                                      · rw [if_pos hDg] at h; rw [ok_pair_fst h]
                                        exact number_not_typeToken _
                                      · rw [if_neg hDg] at h
                                        exact (throw_ne_ok h).elim

/-- The central lexer fact behind claim C2: nextToken can never return a
token whose kind isTypeToken accepts (the keyword table has no entries for
the type names, so they lex as Identifier). -/
theorem nextToken_not_typeToken {lx0 : Lexer} {t : Token} {lxr : Lexer}
    (h : lx0.nextToken = .ok (t, lxr)) : isTypeToken t.type = false := by
  unfold Lexer.nextToken at h
  cases hw : Lexer.skipWhitespaceAndComments (lx0.length + 1) lx0 with
  | error e => rw [hw] at h; exact Except.noConfusion h
  | ok lx =>
    rw [hw] at h
    exact scanToken_not_typeToken (h : Lexer.scanToken lx = .ok (t, lxr))

/-- Parser::advance always installs a lexer-produced lookahead token. -/
theorem advance_not_typeToken {p p' : Parser} (h : p.advance = .ok p') :
    isTypeToken p'.current.type = false := by
  simp only [Parser.advance] at h
  cases hn : p.lexer.nextToken with
  | error e => rw [hn] at h; exact Except.noConfusion h
  | ok r =>
    rw [hn] at h
    obtain ⟨t, lx⟩ := r
    simp only [exc_bind_ok] at h
    have h' : (Except.ok (⟨lx, t⟩ : Parser) : Except Err Parser) = .ok p' := h
    injection h' with h1
    rw [← h1]
    exact nextToken_not_typeToken hn

/-- A successful Parser::expect leaves a lexer-produced lookahead token. -/
theorem expect_not_typeToken {p p' : Parser} {ty : TokenType} {msg : String}
    (h : p.expect ty msg = .ok p') : isTypeToken p'.current.type = false := by
  simp only [Parser.expect, Parser.matchT] at h
  by_cases hc : p.check ty
  · rw [if_pos hc] at h
    cases ha : p.advance with
    | error e => rw [ha] at h; exact Except.noConfusion h
    | ok p1 =>
      rw [ha] at h
      have h' : (Except.ok p1 : Except Err Parser) = .ok p' := h
      injection h' with h1
      rw [← h1]
      exact advance_not_typeToken ha
  · rw [if_neg hc] at h
    exact (throw_ne_ok h).elim

/-- The parameter loop of parseFunction can never succeed: its parameter
type check requires a token kind the lexer never produces. -/
theorem parseParams_always_errors (f : Nat) (p : Parser)
    (acc : List (String × VarType)) : ∃ e, parseParams f p acc = .error e := by
  cases f with
  | zero => exact ⟨.fuel, rfl⟩
  | succ f =>
    simp only [parseParams]
    by_cases hid : p.check .Identifier
    · rw [if_neg (not_not_intro hid)]
      cases ha : p.advance with
      | error e => exact ⟨e, rfl⟩
      | ok p1 =>
        simp only [exc_bind_ok]
        cases hx : p1.expect .Colon ("`:`") with
        | error e => exact ⟨e, rfl⟩
        | ok p2 =>
          simp only [exc_bind_ok]
          have hT := expect_not_typeToken hx
          rw [if_pos (by simp [hT])]
          exact ⟨.parse ("Expected parameter type"), rfl⟩
    · rw [if_pos hid]
      exact ⟨.parse ("Expected parameter name"), rfl⟩

/-- parseFunction can never succeed: every path reaches a parameter-type
or return-type check on a lexer-produced token, and fails. -/
theorem parseFunction_always_errors (f : Nat) (p : Parser) :
    ∃ e, parseFunction f p = .error e := by
  cases f with
  | zero => exact ⟨.fuel, rfl⟩
  | succ f =>
    simp only [parseFunction]
    cases hfn : p.expect .Fn ("`fn`") with
    | error e => exact ⟨e, rfl⟩
    | ok p1 =>
      simp only [exc_bind_ok]
      by_cases hid : p1.check .Identifier
      · rw [if_neg (not_not_intro hid)]
        cases ha : p1.advance with
        | error e => exact ⟨e, rfl⟩
        | ok p2 =>
          simp only [exc_bind_ok]
          cases hlp : p2.expect .LParen ("`(`") with
          | error e => exact ⟨e, rfl⟩
          | ok p3 =>
            simp only [exc_bind_ok]
            by_cases hrp : p3.check .RParen
            · rw [if_neg (not_not_intro hrp)]
              simp only [exc_bind_ok, exc_bind_pure]
              cases hr : p3.expect .RParen ("`)`") with
              | error e => exact ⟨e, rfl⟩
              | ok p4 =>
                simp only [exc_bind_ok]
                cases harw : p4.expect .Arrow ("`->`") with
                | error e => exact ⟨e, rfl⟩
                | ok p5 =>
                  simp only [exc_bind_ok]
                  have hT := expect_not_typeToken harw
                  rw [if_pos (by simp [hT])]
                  exact ⟨.parse ("Expected return type"), rfl⟩
            · rw [if_pos hrp]
              obtain ⟨e, he⟩ := parseParams_always_errors f p3 []
              rw [he]
              exact ⟨e, rfl⟩
      · rw [if_pos hid]
        exact ⟨.parse ("Expected function name"), rfl⟩

/-- A successful parseProgramLoop run never consumed a function. -/
theorem parseProgramLoop_ok {f : Nat} {p : Parser} {acc : List Function}
    {prog : Program} {p' : Parser}
    (h : parseProgramLoop f p acc = .ok (prog, p')) :
    prog = ⟨acc⟩ ∧ p' = p ∧ p.check .Eof = true := by
  cases f with
  | zero => exact (throw_ne_ok h).elim
  | succ f =>
    simp only [parseProgramLoop] at h
    by_cases he : p.check .Eof
    · rw [if_neg (not_not_intro he)] at h
      have h' : (Except.ok ((⟨acc⟩ : Program), p) : Except Err (Program × Parser))
          = .ok (prog, p') := h
      injection h' with h1
      injection h1 with h2 h3
      exact ⟨h2.symm, h3.symm, he⟩
    · rw [if_pos he] at h
      obtain ⟨e, hee⟩ := parseFunction_always_errors f p
      rw [hee] at h
      exact Except.noConfusion
        (show (Except.error e : Except Err (Program × Parser)) = .ok (prog, p') from h)

/-- parseProgramLoop succeeds immediately on an Eof lookahead. -/
theorem parseProgramLoop_eof {f : Nat} {p : Parser} {acc : List Function}
    (hf : 0 < f) (he : p.check .Eof = true) :
    parseProgramLoop f p acc = .ok (⟨acc⟩, p) := by
  cases f with
  | zero => exact absurd hf (by omega)
  | succ f =>
    simp only [parseProgramLoop]
    rw [if_neg (not_not_intro he)]
    rfl

/-- C2: parseProgram either throws or returns a Program with no functions,
and it succeeds exactly when the very first token of the input is already
the end-of-input token; no input ever parses to a Program containing a
Function, because isTypeToken demands token kinds the lexer never emits. -/
theorem C2_parseProgram_only_empty (input : String) :
    (∀ prog, parseProgramTop input = .ok prog → prog.functions = []) ∧
    ((∃ prog, parseProgramTop input = .ok prog) ↔
      (∃ t lx', (Lexer.init input).nextToken = .ok (t, lx') ∧ t.type = .Eof)) := by
  cases hn : (Lexer.init input).nextToken with
  | error e =>
    have hE : parseProgramTop input = .error e := by
      unfold parseProgramTop mkParser
      rw [hn]
      rfl
    refine ⟨fun prog h => Except.noConfusion (hE ▸ h), ?_, ?_⟩
    · rintro ⟨prog, h⟩
      rw [hE] at h
      exact Except.noConfusion h
    · rintro ⟨t, lx', h, _⟩
      exact Except.noConfusion h
  | ok r =>
    obtain ⟨t0, lx0⟩ := r
    by_cases hEof : t0.type = .Eof
    · have hcheck : (⟨lx0, t0⟩ : Parser).check .Eof = true := by
        simp [Parser.check, hEof]
      have hE : parseProgramTop input = .ok ⟨[]⟩ := by
        unfold parseProgramTop mkParser parseProgram
        rw [hn]
        simp only [exc_bind_ok, exc_bind_pure]
        rw [parseProgramLoop_eof (by positivity) hcheck]
        rfl
      refine ⟨?_, fun _ => ⟨t0, lx0, rfl, hEof⟩, fun _ => ⟨⟨[]⟩, hE⟩⟩
      intro prog h
      rw [hE] at h
      injection h with h1
      rw [← h1]
    · have hcheck : ¬ (⟨lx0, t0⟩ : Parser).check .Eof = true := by
        simp [Parser.check]
        exact hEof
      have hERR : ∃ e, parseProgramTop input = .error e := by
        unfold parseProgramTop mkParser parseProgram
        rw [hn]
        simp only [exc_bind_ok, exc_bind_pure]
        cases hl : parseProgramLoop ((input.length + 4) * 8) ⟨lx0, t0⟩ [] with
        | error e => exact ⟨e, rfl⟩
        | ok r2 =>
          obtain ⟨prog, p'⟩ := r2
          obtain ⟨_, _, hchk⟩ := parseProgramLoop_ok hl
          exact absurd hchk hcheck
      obtain ⟨e, hE⟩ := hERR
      refine ⟨fun prog h => Except.noConfusion (hE ▸ h), ?_, ?_⟩
      · rintro ⟨prog, h⟩
        rw [hE] at h
        exact Except.noConfusion h
      · rintro ⟨t1, lx1, h1, hT⟩
        injection h1 with h2
        injection h2 with h3 h4
        exact absurd (h3 ▸ hT) hEof

/-- Witness for C2_parseProgram_only_empty: the empty input lexes directly
to Eof and parses to the empty Program. -/
theorem C2_witness :
    ∃ prog, parseProgramTop ("") = .ok prog ∧ prog.functions = [] := by
  obtain ⟨prog, h⟩ := (C2_parseProgram_only_empty ("")).2.mpr
    ⟨⟨.Eof, "", 1, 1⟩, Lexer.init (""), by rfl, rfl⟩
  exact ⟨prog, h, (C2_parseProgram_only_empty ("")).1 prog h⟩

/-- C5: after the dispatched statement succeeds, parseStatement demands a
semicolon unless the current token is the closing brace: it returns as-is
on a brace, consumes a semicolon, and otherwise fails with the ParseError
Expected `;` after statement. -/
theorem C5_statement_terminator (f : Nat) (p : Parser) (stmt : AST) (p1 : Parser)
    (h : parseStatementCore f p = .ok (stmt, p1)) :
    parseStatement (f + 1) p =
      if p1.check .RBrace then .ok (stmt, p1)
      else if p1.check .Semi then (p1.advance).map (fun p2 => (stmt, p2))
      else .error (.parse ("Expected `;` after statement")) := by
  have hstep : parseStatement (f + 1) p
      = ((parseStatementCore f p) >>= fun x =>
          if x.2.check .RBrace then pure x
          else (x.2.expect .Semi ("`;` after statement")) >>= fun p2 => pure (x.1, p2)) := rfl
  rw [hstep, h, exc_bind_ok]
  by_cases hb : p1.check .RBrace
  · simp [hb, pure, Except.pure]
  · simp only [hb, if_false, Bool.false_eq_true]
    by_cases hs : p1.check .Semi
    · simp only [hs, if_true, Parser.expect, Parser.matchT, hs]
      cases ha : p1.advance with
      | error e => simp [ha, Except.map]
      | ok p2 => simp [ha, Except.map, pure, Except.pure]
    · simp only [hs, Parser.expect, Parser.matchT, if_false, Bool.false_eq_true]
      simp [throw, throwThe, MonadExceptOf.throw, pure, Except.pure]

/-- Witness for C5_statement_terminator: parsing the statement return 1
inside the buffer return 1; x, the dispatched statement ends on the
semicolon, which is consumed. -/
theorem C5_statement_terminator_witness :
    parseStatement 9 ⟨⟨("return 1; x").toList, 6, 1, 8⟩, ⟨.Return, "return", 1, 2⟩⟩
      = .ok (.ReturnStmt (.IntExpr 1),
          ⟨⟨("return 1; x").toList, 11, 1, 15⟩, ⟨.Identifier, "x", 1, 14⟩⟩) := by
  have h := C5_statement_terminator 8
    ⟨⟨("return 1; x").toList, 6, 1, 8⟩, ⟨.Return, "return", 1, 2⟩⟩
    (.ReturnStmt (.IntExpr 1))
    ⟨⟨("return 1; x").toList, 9, 1, 12⟩, ⟨.Semi, ";", 1, 11⟩⟩
    (by rfl)
  rw [h]
  rfl

/-- Indexing an append at the length of the left part reads the head of
the right part. -/
theorem getD_append_self (ds X : List Char) :
    (ds ++ X).getD ds.length nul = X.headD nul := by
  induction ds with
  | nil => cases X <;> rfl
  | cons d ds ih => simpa using ih

/-- Indexing an append one past the length of the left part skips the
first element of the right part. -/
theorem getD_append_succ (ds : List Char) (x : Char) (rest : List Char) :
    (ds ++ x :: rest).getD (ds.length + 1) nul = rest.headD nul := by
  induction ds with
  | nil => cases rest <;> rfl
  | cons d ds ih => simpa using ih

/-- Taking the length of the left part of an append recovers it. -/
theorem take_append_self (ds X : List Char) : (ds ++ X).take ds.length = ds := by
  induction ds with
  | nil => rfl
  | cons d ds ih => simp [ih]

/-- A digit differs from any character outside the digit byte range. -/
theorem digit_ne {c x : Char} (h : isDigitC c = true)
    (hx : x.toNat < 48 ∨ 57 < x.toNat) : c ≠ x := by
  intro he
  subst he
  simp only [isDigitC, decide_eq_true_eq] at h
  omega

/-- A digit is not alphabetic. -/
theorem digit_not_alpha {c : Char} (h : isDigitC c = true) : isAlphaC c = false := by
  simp only [isDigitC, decide_eq_true_eq] at h
  simp only [isAlphaC, decide_eq_false_iff_not]
  omega

/-- A digit is not whitespace. -/
theorem digit_not_space {c : Char} (h : isDigitC c = true) : isSpaceC c = false := by
  simp only [isDigitC, decide_eq_true_eq] at h
  simp only [isSpaceC, decide_eq_false_iff_not]
  omega

/-- skipWhitespaceAndComments is the identity when the next character is
neither whitespace nor a slash. -/
theorem skipWSC_noop {f : Nat} {lx : Lexer}
    (hs : isSpaceC (lx.peek 0) = false) (hsl : lx.peek 0 ≠ '/') :
    Lexer.skipWhitespaceAndComments (f + 1) lx = pure lx := by
  simp only [Lexer.skipWhitespaceAndComments]
  rw [if_neg (by simp [hs]), if_neg (fun hc => hsl hc.1), if_neg (fun hc => hsl hc.1)]

/-- Lexer::advance at an in-range position holding an ordinary character
(not newline, not tab) steps pos and col by one. -/
theorem adv_at {src : List Char} {p l c : Nat} {d : Char}
    (hget : src.getD p nul = d) (hlt : p < src.length)
    (h10 : d ≠ Char.ofNat 10) (h9 : d ≠ Char.ofNat 9) :
    (⟨src, p, l, c⟩ : Lexer).advance = (d, ⟨src, p + 1, l, c + 1⟩) := by
  unfold Lexer.advance
  rw [if_neg (by simp only [Lexer.length]; omega)]
  dsimp only
  rw [hget, if_neg h10, if_neg h9]

/-- The nextToken dispatch on an unmatched `.` character raises the
Unexpected character LexError. -/
theorem scanToken_dot {lx lx1 : Lexer}
    (hpos : ¬ lx.pos ≥ lx.length)
    (hadv : lx.advance = ('.', lx1)) :
    lx.scanToken = .error (lx1.error (("Unexpected character: ").push ('.'))) := by
  unfold Lexer.scanToken
  rw [if_neg hpos]
  dsimp only
  rw [hadv]
  rfl

/-- The nextToken dispatch on a digit backs up one position and defers to
Lexer::number. -/
theorem scanToken_digit {lx lx1 : Lexer} {d : Char}
    (hpos : ¬ lx.pos ≥ lx.length)
    (hadv : lx.advance = (d, lx1))
    (hd : isDigitC d = true) :
    lx.scanToken = pure (Lexer.number { lx1 with pos := lx1.pos - 1 }) := by
  unfold Lexer.scanToken
  rw [if_neg hpos]
  dsimp only
  rw [hadv]
  dsimp only
  rw [if_neg (digit_ne hd (by decide)), if_neg (digit_ne hd (by decide)),
    if_neg (digit_ne hd (by decide)), if_neg (digit_ne hd (by decide)),
    if_neg (digit_ne hd (by decide)), if_neg (digit_ne hd (by decide)),
    if_neg (digit_ne hd (by decide)), if_neg (digit_ne hd (by decide)),
    if_neg (digit_ne hd (by decide)), if_neg (digit_ne hd (by decide)),
    if_neg (digit_ne hd (by decide)), if_neg (digit_ne hd (by decide)),
    if_neg (digit_ne hd (by decide)), if_neg (digit_ne hd (by decide)),
    if_neg (digit_ne hd (by decide)), if_neg (digit_ne hd (by decide))]
  rw [if_neg (not_or_intro (by simp [digit_not_alpha hd]) (digit_ne hd (by decide)))]
  rw [if_pos hd]

/-- The digit scan walks over exactly the pending block of digits. -/
theorem digitsBody_scan (ds : List Char) :
    ∀ (pre t : List Char) (l c fuel : Nat),
      (∀ x ∈ ds, isDigitC x = true) →
      isDigitC (t.headD nul) = false →
      ds.length < fuel →
      Lexer.digitsBody fuel ⟨pre ++ ds ++ t, pre.length, l, c⟩
        = ⟨pre ++ ds ++ t, pre.length + ds.length, l, c + ds.length⟩ := by
  induction ds with
  | nil =>
    intro pre t l c fuel _ hnd hf
    obtain ⟨f, rfl⟩ : ∃ f, fuel = f + 1 := ⟨fuel - 1, by omega⟩
    simp only [Lexer.digitsBody]
    rw [if_neg (by
      have hpk : (⟨pre ++ [] ++ t, pre.length, l, c⟩ : Lexer).peek 0 = t.headD nul := by
        simp only [Lexer.peek, Nat.add_zero, List.append_nil]
        exact getD_append_self pre t
      rw [hpk, hnd]
      simp)]
    rfl
  | cons d ds ih =>
    intro pre t l c fuel hd hnd hf
    obtain ⟨f, rfl⟩ : ∃ f, fuel = f + 1 := ⟨fuel - 1, by omega⟩
    have hdd : isDigitC d = true := hd d (by simp)
    have hpk : (⟨pre ++ (d :: ds) ++ t, pre.length, l, c⟩ : Lexer).peek 0 = d := by
      simp only [Lexer.peek, Nat.add_zero]
      have hassoc : pre ++ (d :: ds) ++ t = pre ++ (d :: (ds ++ t)) := by simp
      rw [hassoc, getD_append_self]
      rfl
    have hadv : (⟨pre ++ (d :: ds) ++ t, pre.length, l, c⟩ : Lexer).advance
        = (d, ⟨pre ++ (d :: ds) ++ t, pre.length + 1, l, c + 1⟩) := by
      refine adv_at hpk ?_ (digit_ne hdd (by decide)) (digit_ne hdd (by decide))
      simp only [List.length_append, List.length_cons]
      omega
    simp only [Lexer.digitsBody]
    rw [if_pos (by rw [hpk]; exact hdd), hadv]
    have hrec := ih (pre ++ [d]) t l (c + 1) f
      (fun x hx => hd x (by simp [hx])) hnd (by simp at hf; omega)
    have hl1 : (pre ++ [d]) ++ ds ++ t = pre ++ (d :: ds) ++ t := by simp
    have hl2 : (pre ++ [d]).length = pre.length + 1 := by simp
    rw [hl1, hl2] at hrec
    dsimp only
    rw [hrec]
    simp only [List.length_cons]
    rw [(by omega : pre.length + 1 + ds.length = pre.length + (ds.length + 1)),
      (by omega : c + 1 + ds.length = c + (ds.length + 1))]

/-- Lexer::number on a buffer of digits followed by a dot that is not
followed by a digit: the token is the digits, the dot is unconsumed. -/
theorem number_digits (ds rest : List Char) (l c : Nat)
    (h2 : ∀ x ∈ ds, isDigitC x = true)
    (h3 : isDigitC (rest.headD nul) = false) :
    Lexer.number ⟨ds ++ '.' :: rest, 0, l, c⟩
      = (⟨TokenType.Integer, ds.asString, l, c⟩,
          ⟨ds ++ '.' :: rest, ds.length, l, c + ds.length⟩) := by
  have hscan := digitsBody_scan ds [] ('.' :: rest) l c
    ((⟨ds ++ '.' :: rest, 0, l, c⟩ : Lexer).length + 1) h2
    (by simp only [List.headD_cons]; decide)
    (by simp only [Lexer.length, List.length_append, List.length_cons]; omega)
  simp only [List.nil_append, List.length_nil, Nat.zero_add] at hscan
  simp only [Lexer.number]
  rw [hscan]
  have hpk0 : (⟨ds ++ '.' :: rest, ds.length, l, c + ds.length⟩ : Lexer).peek 0 = '.' := by
    simp only [Lexer.peek, Nat.add_zero]
    rw [getD_append_self]
    rfl
  have hpk1 : (⟨ds ++ '.' :: rest, ds.length, l, c + ds.length⟩ : Lexer).peek 1
      = rest.headD nul := by
    simp only [Lexer.peek]
    exact getD_append_succ ds '.' rest
  have hcond : ¬ ((⟨ds ++ '.' :: rest, ds.length, l, c + ds.length⟩ : Lexer).peek 0 = '.'
      ∧ isDigitC ((⟨ds ++ '.' :: rest, ds.length, l, c + ds.length⟩ : Lexer).peek 1) = true) := by
    intro hc
    rw [hpk1] at hc
    rw [h3] at hc
    exact absurd hc.2 (by simp)
  rw [if_neg hcond]
  simp only [substr, List.drop_zero, Nat.sub_zero, take_append_self]
  rfl

/-- C7 counterexample: lexing the input `1.` yields the Integer token `1`
with the dot left unconsumed, but the next nextToken call raises a
LexError (Err.lex), not a parser error as the claim states. -/
theorem C7_counterexample :
    (Lexer.init ("1.")).nextToken
        = .ok (⟨.Integer, "1", 1, 2⟩, ⟨("1.").toList, 1, 1, 3⟩)
      ∧ (⟨("1.").toList, 1, 1, 3⟩ : Lexer).nextToken
        = .error (.lex ("Unexpected character: .") 1 3 ("1.")) :=
  ⟨rfl, rfl⟩

/-- C7 amended: for an input of one or more digits followed by a `.` not
immediately followed by a digit, nextToken returns an Integer token whose
lexeme is exactly the digits and leaves the `.` unconsumed; the following
nextToken call then raises the LexError Unexpected character `.` — a
lexer error, not a parser error. -/
theorem C7_amended_integer_then_lex_error (ds rest : List Char)
    (h1 : ds ≠ []) (h2 : ∀ x ∈ ds, isDigitC x = true)
    (h3 : isDigitC (rest.headD nul) = false) :
    (⟨ds ++ '.' :: rest, 0, 1, 1⟩ : Lexer).nextToken
        = .ok (⟨.Integer, ds.asString, 1, 2⟩,
            ⟨ds ++ '.' :: rest, ds.length, 1, 2 + ds.length⟩)
      ∧ ∃ srcLine,
          (⟨ds ++ '.' :: rest, ds.length, 1, 2 + ds.length⟩ : Lexer).nextToken
            = .error (.lex (("Unexpected character: ").push ('.')) 1 (ds.length + 2) srcLine) := by
  obtain ⟨d, ds', rfl⟩ : ∃ d ds', ds = d :: ds' := by
    cases ds with
    | nil => exact absurd rfl h1
    | cons d ds' => exact ⟨d, ds', rfl⟩
  have hdd : isDigitC d = true := h2 d (by simp)
  constructor
  · -- the Integer token
    unfold Lexer.nextToken
    have hpk : (⟨(d :: ds') ++ '.' :: rest, 0, 1, 1⟩ : Lexer).peek 0 = d := rfl
    rw [skipWSC_noop (by rw [hpk]; exact digit_not_space hdd)
      (by rw [hpk]; exact digit_ne hdd (by decide))]
    rw [exc_bind_pure]
    have hadv : (⟨(d :: ds') ++ '.' :: rest, 0, 1, 1⟩ : Lexer).advance
        = (d, ⟨(d :: ds') ++ '.' :: rest, 1, 1, 2⟩) :=
      adv_at rfl (by simp) (digit_ne hdd (by decide)) (digit_ne hdd (by decide))
    rw [scanToken_digit (by simp [Lexer.length]) hadv hdd]
    have hnum := number_digits (d :: ds') rest 1 2 h2 h3
    dsimp only
    rw [hnum]
    rfl
  · -- the stray dot raises a LexError on the next call
    have hget : ((d :: ds') ++ '.' :: rest).getD ((d :: ds').length) nul = '.' := by
      rw [getD_append_self]
      rfl
    have hpk : (⟨(d :: ds') ++ '.' :: rest, (d :: ds').length, 1,
        2 + (d :: ds').length⟩ : Lexer).peek 0 = '.' := by
      simp only [Lexer.peek, Nat.add_zero]
      exact hget
    have hadv : (⟨(d :: ds') ++ '.' :: rest, (d :: ds').length, 1,
        2 + (d :: ds').length⟩ : Lexer).advance
        = ('.', ⟨(d :: ds') ++ '.' :: rest, (d :: ds').length + 1, 1,
            2 + (d :: ds').length + 1⟩) := by
      refine adv_at hget ?_ (by decide) (by decide)
      simp only [List.length_append, List.length_cons]
      omega
    refine ⟨(⟨(d :: ds') ++ '.' :: rest, (d :: ds').length + 1, 1,
        2 + (d :: ds').length + 1⟩ : Lexer).getCurrentLine, ?_⟩
    unfold Lexer.nextToken
    rw [skipWSC_noop (by rw [hpk]; decide) (by rw [hpk]; decide)]
    rw [exc_bind_pure]
    rw [scanToken_dot (by
      simp only [Lexer.length, List.length_append, List.length_cons]
      omega) hadv]
    unfold Lexer.error
    dsimp only
    rw [if_pos (by omega : 1 < 2 + (d :: ds').length + 1)]
    rw [(by omega : 2 + (d :: ds').length + 1 - 1 = (d :: ds').length + 2)]

/-- Witness for C7_amended_integer_then_lex_error at the spec example
input, the two characters `1` and `.`. -/
theorem C7_amended_witness :
    (⟨['1'] ++ '.' :: [], 0, 1, 1⟩ : Lexer).nextToken
        = .ok (⟨.Integer, (['1']).asString, 1, 2⟩,
            ⟨['1'] ++ '.' :: [], (['1']).length, 1, 2 + (['1']).length⟩)
      ∧ ∃ srcLine,
          (⟨['1'] ++ '.' :: [], (['1']).length, 1, 2 + (['1']).length⟩ : Lexer).nextToken
            = .error (.lex (("Unexpected character: ").push ('.')) 1 ((['1']).length + 2) srcLine) :=
  C7_amended_integer_then_lex_error (['1']) ([]) (by decide) (by decide) (by decide)

/-- C1: the spec example `fn id(x: Int) -> Int ... return x ...` is claimed to
parse to a one-function Program.  The code instead rejects it: the lexer
classifies `Int` as an Identifier token and `isTypeToken` only accepts the
IntType..VoidType kinds, so `parseFunction` throws at the parameter type. -/
theorem C1_example_program_rejected :
    parseProgramTop ("fn id(x: Int) -> Int \x7b return x; \x7d")
      = .error (.parse ("Expected parameter type")) := by
  rfl

/-- C3: evaluating the parser on `1 + 2 * 3`.  The precedence shape matches
the claim, but the operator strings stored are the lexemes of the tokens
following each operator, `2` and `3`, not `+` and `*`: parseTerm and
parseFactor read `current.lexeme` after `match` has consumed the operator. -/
theorem C3_precedence_shape_with_actual_ops :
    parseExpressionTop ("1 + 2 * 3")
      = .ok (.BinaryExpr ("2") (.IntExpr 1)
          (.BinaryExpr ("3") (.IntExpr 2) (.IntExpr 3))) := by
  rfl

/-- C4: evaluating the parser on `1 - 2 - 3`.  The grouping is left-nested
as claimed, but the operator strings stored are `2` and `3`, the lexemes of
the right operands, not the consumed `-` lexemes. -/
theorem C4_left_assoc_shape_with_actual_ops :
    parseExpressionTop ("1 - 2 - 3")
      = .ok (.BinaryExpr ("3")
          (.BinaryExpr ("2") (.IntExpr 1) (.IntExpr 2)) (.IntExpr 3)) := by
  rfl

/-- C6: lexing an empty char literal (two apostrophes).  The claim says the
LexError message is Empty char literal; the lexer has no apostrophe case at
all (Lexer::_char is declared but never defined or called), so the first
apostrophe raises Unexpected character instead. -/
theorem C6_empty_char_literal_is_unexpected_character :
    (Lexer.init (([Char.ofNat 39, Char.ofNat 39]).asString)).nextToken
      = .error (.lex (("Unexpected character: ").push (Char.ofNat 39)) 1 1
          (([Char.ofNat 39, Char.ofNat 39]).asString)) := by
  rfl

/-- C8: the identifier texts true and false lex as plain Identifier tokens
(the keyword table has no entry for them and TokenType.Bool is never
produced), and in expression position they parse to Variable references,
not BoolLiteral nodes as the claim states. -/
theorem C8_true_false_lex_as_identifiers :
    (Lexer.init ("true")).nextToken
        = .ok (⟨.Identifier, "true", 1, 2⟩, ⟨("true").toList, 4, 1, 6⟩)
      ∧ (Lexer.init ("false")).nextToken
        = .ok (⟨.Identifier, "false", 1, 2⟩, ⟨("false").toList, 5, 1, 7⟩)
      ∧ parseExpressionTop ("true") = .ok (.VarExpr ("true"))
      ∧ parseExpressionTop ("false") = .ok (.VarExpr ("false")) :=
  ⟨rfl, rfl, rfl, rfl⟩

/-- C9 counterexample: on the source line `a<tab>b` at column 3 the code
formatter and the display format the claim describes disagree: the code
prints `Lexer error` (not `Lex error`) and expands the tab to exactly four
spaces (display `a    b`), while the caret column 4 is computed by
next-4-column-stop expansion; under the claimed format the display would be
`a   b` with the caret on `b`. -/
theorem C9_counterexample :
    (LexerError.mk ("msg") 1 3 ("a\tb")).formatMessage
        = ("Lexer error at line 1, col 3: msg\na    b\n    ^")
      ∧ claimFormatMessage (LexerError.mk ("msg") 1 3 ("a\tb"))
        = ("Lex error at line 1, col 3: msg\na   b\n    ^")
      ∧ (LexerError.mk ("msg") 1 3 ("a\tb")).formatMessage
          ≠ claimFormatMessage (LexerError.mk ("msg") 1 3 ("a\tb")) :=
  ⟨rfl, rfl, by decide⟩

/-- C9 amended: for a nonempty source line the diagnostic is the line
`Lexer error at line L, col C: message`, then the source line with every
tab expanded to exactly four spaces, then a caret at the column computed by
visualColumn (next-multiple-of-4 tab stops) — an expansion that differs
from the one used for display whenever a tab sits at a visual position
that is not a multiple of four. -/
theorem C9_amended_format (e : LexerError) (h : e.sourceLine ≠ "") :
    e.formatMessage =
      ("Lexer error at line ") ++ toString e.line ++ (", col ") ++ toString e.col
        ++ (": ") ++ e.message ++ ("\n") ++ expandTabs e.sourceLine ++ ("\n")
        ++ spacesN (visualColumn e.sourceLine e.col) ++ ("^") := by
  unfold LexerError.formatMessage
  rw [if_neg h]

/-- Witness for C9_amended_format at a concrete diagnostic. -/
theorem C9_amended_format_witness :
    (LexerError.mk ("msg") 1 3 ("a\tb")).formatMessage =
      ("Lexer error at line ") ++ toString (1 : Nat) ++ (", col ") ++ toString (3 : Nat)
        ++ (": ") ++ ("msg") ++ ("\n") ++ expandTabs ("a\tb") ++ ("\n")
        ++ spacesN (visualColumn ("a\tb") 3) ++ ("^") :=
  C9_amended_format (LexerError.mk ("msg") 1 3 ("a\tb")) (by decide)

/-- C10: whenever peekToken returns a token, it is the token an immediate
nextToken call would return, and the position, line and column of the
returned lexer are exactly those of the lexer before the call. -/
theorem C10_peekToken_pure_lookahead (lx : Lexer) (t : Token) (lx2 : Lexer)
    (h : lx.peekToken = .ok (t, lx2)) :
    lx2.pos = lx.pos ∧ lx2.line = lx.line ∧ lx2.col = lx.col ∧
      ∃ lx3, lx.nextToken = .ok (t, lx3) := by
  unfold Lexer.peekToken at h
  cases hn : lx.nextToken with
  | error e => rw [hn] at h; cases h
  | ok r =>
    obtain ⟨t0, lx'⟩ := r
    rw [hn] at h
    cases h
    exact ⟨rfl, rfl, rfl, lx', rfl⟩

/-- Witness for C10_peekToken_pure_lookahead on the one-character input x. -/
theorem C10_peekToken_witness :
    (Lexer.init ("x")).pos = (Lexer.init ("x")).pos
      ∧ (Lexer.init ("x")).line = (Lexer.init ("x")).line
      ∧ (Lexer.init ("x")).col = (Lexer.init ("x")).col
      ∧ ∃ lx3, (Lexer.init ("x")).nextToken = .ok (⟨.Identifier, "x", 1, 2⟩, lx3) :=
  C10_peekToken_pure_lookahead (Lexer.init ("x")) ⟨.Identifier, "x", 1, 2⟩
    (Lexer.init ("x")) (by rfl)

end ESharp
